import Mathlib

/-!
Verification of src/backend.py (TaskScraper): a shallow embedding of the
classification, summarization and finalization logic, with theorems that
settle the frozen claims about the natural-language specification.

Python strings are modelled as Lean `String` / `List Char`; `None` inputs as
`Option`; raised exceptions as `Except String`; exact rationals stand in for
Python floats (all float values reached here are small-denominator rationals,
far from any comparison boundary, so exact comparison agrees with float
comparison).
-/

/-! ## Character helpers (ASCII model of Python str.lower, \s, character classes) -/

/-- Python `str.lower()` modelled on ASCII: maps A-Z to a-z, leaves other
characters unchanged. -/
def pyLowerChar (c : Char) : Char :=
  if 'A'.toNat ≤ c.toNat ∧ c.toNat ≤ 'Z'.toNat then Char.ofNat (c.toNat + 32) else c

/-- Python regex `\s` (ASCII): space, tab, newline, carriage return,
vertical tab, form feed. Also the set stripped by `str.strip()`. -/
def isPySpace (c : Char) : Bool :=
  c = ' ' || c = '\t' || c = '\n' || c = '\r' || c = '\x0b' || c = '\x0c'

/-- Membership in the character class `[a-z0-9 ]` kept by `normalize_string`. -/
def isNormChar (c : Char) : Bool :=
  ('a'.toNat ≤ c.toNat && c.toNat ≤ 'z'.toNat)
  || ('0'.toNat ≤ c.toNat && c.toNat ≤ '9'.toNat)
  || c = ' '

/-- The character class `[0-9]` (Python `str.isdigit` on ASCII, `\d`). -/
def isDigitChar (c : Char) : Bool :=
  '0'.toNat ≤ c.toNat && c.toNat ≤ '9'.toNat

/-! ## Python str.strip() -/

/-- Drop leading Python whitespace. -/
def trimLeft (l : List Char) : List Char := l.dropWhile isPySpace

/-- Drop trailing Python whitespace. -/
def trimRight (l : List Char) : List Char := (l.reverse.dropWhile isPySpace).reverse

/-- Python `str.strip()`: drop whitespace from both ends. -/
def pyStrip (l : List Char) : List Char := trimRight (trimLeft l)

/-! ## normalize_string (src/backend.py lines 66-67)

`def normalize_string(s): return re.sub(r'[^a-z0-9 ]+', '', s.lower()).strip()`

Substituting every maximal run of characters outside `[a-z0-9 ]` by the empty
string is the same as filtering the string to that class, so the regex
substitution is embedded as a filter. -/

def normalize_string (s : String) : String :=
  ⟨pyStrip ((s.data.map pyLowerChar).filter isNormChar)⟩

/-- `normalize_string` on a possibly-`None` argument: `None.lower()` raises
`AttributeError` in Python, which the function does not catch. -/
def normalize_string_opt : Option String → Except String String
  | none => .error "AttributeError: NoneType object has no attribute lower"
  | some s => .ok (normalize_string s)

/-! ## List-of-char substring utilities -/

/-- `startsWithL needle hay`: `needle` is a prefix of `hay`. -/
def startsWithL : List Char → List Char → Bool
  | [], _ => true
  | _ :: _, [] => false
  | a :: as, b :: bs => a = b && startsWithL as bs

/-- `containsSub needle hay`: `needle` occurs contiguously in `hay`
(Python `needle in hay`). -/
def containsSub (needle : List Char) : List Char → Bool
  | [] => startsWithL needle []
  | c :: t => startsWithL needle (c :: t) || containsSub needle t

/-- Python `hay.split(needle, 1)[0]`: the part of `hay` before the first
occurrence of `needle` (all of `hay` when absent). -/
def splitBefore (needle : List Char) : List Char → List Char
  | [] => []
  | c :: t => if startsWithL needle (c :: t) then [] else c :: splitBefore needle t

/-! ## HTML tag stripping (re.sub(r"<[^>]+>", "", text))

The regex removes each `<`, at least one non-`>` character, and the closing
`>`; a lone `<` with no later `>` (or an immediately following `>`) does not
match and is kept, and scanning resumes after each removed tag. -/

/-- One-pass tag stripper. `buf = none` means the scan is outside any
candidate tag; `buf = some acc` means an unmatched `<` was seen and `acc`
holds it together with the content read so far, in reverse. On reading `>`:
a pending `<` with no inner character is not a regex match (the class needs
at least one character) and is emitted verbatim with the `>`, while a
pending tag with content is dropped whole. Pending characters left at the
end of the input never found a `>` and are emitted verbatim. A `<` read
while inside a pending tag is ordinary content (the class `[^>]` admits
it). -/
def stripTagsGo : Option (List Char) → List Char → List Char
  | none, [] => []
  | some acc, [] => acc.reverse
  | none, c :: t => if c = '<' then stripTagsGo (some [c]) t else c :: stripTagsGo none t
  | some acc, c :: t =>
    if c = '>' then
      if acc.length = 1 then acc.reverse ++ '>' :: stripTagsGo none t
      else stripTagsGo none t
    else stripTagsGo (some (c :: acc)) t

/-- `re.sub(r"<[^>]+>", "", ·)`: remove every well-formed tag. -/
def stripTags (cs : List Char) : List Char := stripTagsGo none cs

/-! ## has_existing_notes (src/backend.py lines 1001-1007)

Reads the inner HTML of `#displaySpan<task_id>`, keeps what precedes the
`<form` tag, strips markup and whitespace, and reports whether anything
remains. -/

def has_existing_notes (html : String) : Bool :=
  !(pyStrip (stripTags (splitBefore "<form".data html.data))).isEmpty

/-! ## Responsible-party extraction (src/backend.py lines 389-403)

```
responsible = "Customer"
text = notes["combined"].lower()
m = re.search(r"damage caused by\s+([^.,\n]+)", text, re.IGNORECASE)
if m:
    responsible = m.group(1).strip()
else:
    m2 = re.search(r"([^.,\n]+?)\s+responsible", text, re.IGNORECASE)
    if m2:
        responsible = m2.group(1).strip()
    if "brightspeed" in text or "bright speed" in text:
        responsible = "Brightspeed"
```

The two regexes are embedded with Python search semantics: leftmost match
wins; `\s+` is greedy with backtracking; `([^.,\n]+)` is greedy;
`([^.,\n]+?)` is lazy. `IGNORECASE` is immaterial because `text` is already
lowercased and the literals are lowercase. -/

/-- The class `[^.,\n]` of both capture groups. -/
def notDelim (c : Char) : Bool := !(c = '.' || c = ',' || c = '\n')

/-- Backtracking tail of `damage caused by\s+([^.,\n]+)` after the literal:
`rest` starts with `k` whitespace characters consumed greedily by `\s+`; on
failure of the group the consumed count backs off down to 1. -/
def tryGroupStart (rest : List Char) : Nat → Option (List Char)
  | 0 => none
  | Nat.succ k =>
    match rest.drop (Nat.succ k) with
    | c :: t => if notDelim c then some (List.takeWhile notDelim (c :: t)) else tryGroupStart rest k
    | [] => tryGroupStart rest k

/-- Match `\s+([^.,\n]+)` at the start of `rest`, returning the group. -/
def matchDamageTail (rest : List Char) : Option (List Char) :=
  let w := rest.takeWhile isPySpace
  if w.isEmpty then none else tryGroupStart rest w.length

/-- `re.search(r"damage caused by\s+([^.,\n]+)", text)`: leftmost match,
returning the capture group (before `.strip()`). -/
def searchDamage : List Char → Option (List Char)
  | [] => none
  | c :: t =>
    if startsWithL "damage caused by".data (c :: t) then
      match matchDamageTail ((c :: t).drop "damage caused by".data.length) with
      | some g => some g
      | none => searchDamage t
    else searchDamage t

/-- After a candidate lazy group, the rest must match `\s+responsible`; since
`responsible` starts with a non-whitespace character, greedy `\s+` consumes
exactly the whitespace run, which must be non-empty. -/
def respTailOk (t : List Char) : Bool :=
  let w := t.takeWhile isPySpace
  !w.isEmpty && startsWithL "responsible".data (t.drop w.length)

/-- Lazy group of `([^.,\n]+?)\s+responsible` at a fixed start: grow the
group one character at a time (shortest first), checking the tail after each
extension; a character outside the class aborts this start. -/
def matchRespAt (acc : List Char) : List Char → Option (List Char)
  | [] => none
  | c :: t =>
    if notDelim c then
      if respTailOk t then some (acc ++ [c]) else matchRespAt (acc ++ [c]) t
    else none

/-- `re.search(r"([^.,\n]+?)\s+responsible", text)`: leftmost match,
returning the capture group (before `.strip()`). -/
def searchResp : List Char → Option (List Char)
  | [] => none
  | c :: t =>
    match matchRespAt [] (c :: t) with
    | some g => some g
    | none => searchResp t

/-- The RESPONSIBLE PARTY value computed by `format_dispatch_summary` from
the combined work-order notes. -/
def responsibleParty (combined : String) : String :=
  let text := combined.data.map pyLowerChar
  match searchDamage text with
  | some g => ⟨pyStrip g⟩
  | none =>
    let base : String :=
      match searchResp text with
      | some g => ⟨pyStrip g⟩
      | none => "Customer"
    if containsSub "brightspeed".data text || containsSub "bright speed".data text then
      "Brightspeed"
    else base

/-! ## Billable-hours computation (src/backend.py lines 353-379)

```
if arr_date and re.match(r"\d{4}-\d{2}-\d{2}", arr_date) and arr_time and re.match(r"\d{1,2}:\d{2}", arr_time):
    arr_display = arr_time
else:
    arr_display = "not given"
... (departure alike) ...
if arr_display != "not given" and dep_display != "not given":
    hours = (t_dep - t_arr).total_seconds() / 3600
    hours = max(hours, 1.0)
    total_hours = round(hours * 4) / 4
    total_display = f"(total_hours):.2f"
else:
    total_display = "1.00"
```

The two `strptime`-parsed datetimes have minute resolution, so their
difference is an integer number of minutes `m` and `hours = m / 60` exactly;
the floats reached here are small-denominator rationals, so exact rational
arithmetic models the float computation faithfully. -/

/-- `re.match(r"\d{4}-\d{2}-\d{2}", s)`: the pattern matches a prefix of `s`. -/
def matchDatePrefix (s : String) : Bool :=
  match s.data with
  | a :: b :: c :: d :: h1 :: e :: f :: h2 :: g :: i :: _ =>
    isDigitChar a && isDigitChar b && isDigitChar c && isDigitChar d
    && h1 = '-' && isDigitChar e && isDigitChar f
    && h2 = '-' && isDigitChar g && isDigitChar i
  | _ => false

/-- `re.match(r"\d{1,2}:\d{2}", s)`: the pattern matches a prefix of `s`
(greedy `{1,2}` with backtracking: two leading digits or one). -/
def matchTimePrefix (s : String) : Bool :=
  match s.data with
  | [a, b, c, d] =>
    isDigitChar a && b = ':' && isDigitChar c && isDigitChar d
  | a :: b :: c :: d :: e :: _ =>
    (isDigitChar a && isDigitChar b && c = ':' && isDigitChar d && isDigitChar e)
    || (isDigitChar a && b = ':' && isDigitChar c && isDigitChar d)
  | _ => false

/-- The endpoint-validity test `date and re.match(...) and time and re.match(...)`. -/
def displayValid (dateS timeS : String) : Bool :=
  !dateS.data.isEmpty && matchDatePrefix dateS && !timeS.data.isEmpty && matchTimePrefix timeS

/-- Python `max(a, b)` on numbers: `a` when `a ≥ b`, else `b`. -/
def pyMax (a b : ℚ) : ℚ := if a < b then b else a

/-- Python `round` (round-half-to-even) on an exact rational, computed on the
numerator and denominator: with `f = ⌊q⌋`, the doubled fractional part
`2*(q.num - f*q.den)` is compared against `q.den`. -/
def pyRound (q : ℚ) : ℤ :=
  let f := ⌊q⌋
  let t := 2 * (q.num - f * (q.den : ℤ))
  if t < (q.den : ℤ) then f
  else if (q.den : ℤ) < t then f + 1
  else if f % 2 = 0 then f else f + 1

/-- Multiplication of a rational by 4 without invoking `Rat.mul`
(kernel-reducible); `timesFour_eq` below identifies it with `4 * q`. -/
def timesFour (q : ℚ) : ℚ := mkRat (4 * q.num) q.den

/-- `round(max(m/60, 1.0) * 4)`: the billed total in quarter hours, from the
minute difference `m` of the two parsed datetimes. -/
def quarterSteps (m : ℤ) : ℤ := pyRound (timesFour (pyMax (mkRat m 60) 1))

/-- `total_hours = round(hours*4)/4` as an exact rational. -/
def totalHoursQ (m : ℤ) : ℚ := mkRat (quarterSteps m) 4

/-- The two decimal digits of `f"(k/4):.2f"` for an integer quarter count. -/
def twoDecimalsOfQuarter (r : ℤ) : String :=
  if r = 1 then "25" else if r = 2 then "50" else if r = 3 then "75" else "00"

/-- `f"(total_hours):.2f"` for the valid-endpoints branch. -/
def totalDisplayValidCase (m : ℤ) : String :=
  toString (quarterSteps m / 4) ++ "." ++ twoDecimalsOfQuarter (quarterSteps m % 4)

/-- The rendered `Total time of DP` value: the computed display when both
endpoints validate, the literal `"1.00"` otherwise. `m` is the
minute difference of the two parsed datetimes. -/
def totalDisplay (arrDate arrTime depDate depTime : String) (m : ℤ) : String :=
  if displayValid arrDate arrTime && displayValid depDate depTime then
    totalDisplayValidCase m
  else "1.00"

/-! ## Fuzzy job-type classification (src/backend.py lines 66-83, 428-450)

`rapidfuzz.fuzz.ratio` is the normalized indel similarity
`100 * 2 * lcs(a, b) / (len a + len b)` (`100` when both strings are empty,
`0` when exactly one is); `fuzz.partial_ratio` aligns the shorter string
against every window of its length in the longer string and takes the best
`ratio`. Scores are kept as exact rationals: every float compared by the
source is such a small-denominator rational, so exact comparison agrees with
float comparison. `process.extractOne` returns the first candidate attaining
the maximal score. -/

/-- One dynamic-programming step for the longest-common-subsequence table:
given the previous row (aligned with the remaining characters of `b`) and
the value `left` to the left of the current cell, produce the rest of the
new row. -/
def lcsCells (ca : Char) : List Char → List Nat → Nat → List Nat
  | [], _, _ => []
  | cb :: bs, prev, left =>
    match prev with
    | p0 :: ps =>
      let v := if ca = cb then p0 + 1 else Nat.max left (ps.headD 0)
      v :: lcsCells ca bs ps v
    | [] => []

/-- The new row of the LCS table after consuming `ca`. -/
def lcsRow (ca : Char) (b : List Char) (prev : List Nat) : List Nat :=
  0 :: lcsCells ca b prev 0

/-- Length of the longest common subsequence of two character lists. -/
def lcs (a b : List Char) : Nat :=
  (a.foldl (fun row ca => lcsRow ca b row) (List.replicate (b.length + 1) 0)).getLastD 0

/-- `rapidfuzz.fuzz.ratio` as an exact rational in `[0, 100]`. -/
def ratioQ (a b : List Char) : ℚ :=
  if a.isEmpty && b.isEmpty then 100
  else mkRat (200 * (lcs a b : ℤ)) (a.length + b.length)

/-- All windows of length `m` in `b`. -/
def slidingWindows (m : Nat) (b : List Char) : List (List Char) :=
  (List.range (b.length - m + 1)).map (fun i => (b.drop i).take m)

/-- `rapidfuzz.fuzz.partial_ratio`: best `ratioQ` of the shorter string
against the windows of its length in the longer string. -/
def partRatioQ (s1 s2 : List Char) : ℚ :=
  let p := if s1.length ≤ s2.length then (s1, s2) else (s2, s1)
  if p.1.isEmpty then (if p.2.isEmpty then 100 else 0)
  else ((slidingWindows p.1.length p.2).map (fun w => ratioQ p.1 w)).foldl
    (fun acc x => if acc < x then x else acc) 0

/-- One step of `process.extractOne`: keep the better of the best-so-far and
the next candidate, replacing only on a strictly greater score (so the first
maximal candidate wins). -/
def pickBetter (q : List Char) (acc : Option (List Char × ℚ)) (c : List Char) :
    Option (List Char × ℚ) :=
  match acc with
  | none => some (c, partRatioQ q c)
  | some (bc, bs) => if bs < partRatioQ q c then some (c, partRatioQ q c) else some (bc, bs)

/-- `process.extractOne(query, cands, scorer=fuzz.partial_ratio)`:
the best candidate with its score, `none` on an empty candidate list. -/
def extractOne (q : List Char) (cands : List (List Char)) : Option (List Char × ℚ) :=
  cands.foldl (pickBetter q) none

/-- The `JOB_TYPE_CATEGORIES["Free"]` exemplars, normalized exactly as the
source normalizes them (the source set comprehension applies
`normalize_string` to these literals). -/
def freeKeywords : List (List Char) :=
  (["WiFi Survey", "NID/IW/CopperTest", "equipment check", "swap router",
    "ONT Swap", "STB to ONN Conversion", "Jack/FXS/Phone Check", "Blank",
    "Go-Live", "Install", "rouge ont", "onn swap", "ont dying", "stb swap",
    "Tie down", "onn"].map (fun s => (normalize_string s).data))

/-- The `JOB_TYPE_CATEGORIES["Billable"]` exemplars, normalized. -/
def billableKeywords : List (List Char) :=
  (["ONT Move", "ONT in Disco", "Fiber Cut", "Broken Fiber", "Fiber Move"].map
    (fun s => (normalize_string s).data))

/-- The triple returned by `is_free_job` / `is_billable_job`:
matched exemplar, win flag (`score > 90`), and score. -/
structure JobMatch where
  keyword : String
  wins : Bool
  score : ℚ
deriving DecidableEq

/-- `is_free_job(job_type)`: empty text short-circuits to
`("(blank)", True, 100)`; otherwise the normalized text is matched against
the Free exemplars and the set wins iff the best score is strictly above 90. -/
def is_free_job (job_type : String) : JobMatch :=
  if job_type = "" then ⟨"(blank)", true, 100⟩
  else
    match extractOne (normalize_string job_type).data freeKeywords with
    | some (m, s) => ⟨⟨m⟩, decide ((90 : ℚ) < s), s⟩
    | none => ⟨"", false, 0⟩

/-- `is_billable_job(job_type)`: empty text short-circuits to
`("(blank)", False, 0)`; otherwise as `is_free_job` over the Billable set. -/
def is_billable_job (job_type : String) : JobMatch :=
  if job_type = "" then ⟨"(blank)", false, 0⟩
  else
    match extractOne (normalize_string job_type).data billableKeywords with
    | some (m, s) => ⟨⟨m⟩, decide ((90 : ℚ) < s), s⟩
    | none => ⟨"", false, 0⟩

/-- The three job-type categories of `JOB_TYPE_CATEGORIES`. -/
inductive JobCategory | Free | Billable | Unknown
deriving DecidableEq

/-- The category induced by the two classifier predicates with the
orchestrator's Free-before-Billable precedence (`run_with_progress` computes
`is_free` and `is_bill` and consults `is_free` first); Unknown when neither
set wins. -/
def classifyCategory (jt : String) : JobCategory :=
  if (is_free_job jt).wins then .Free
  else if (is_billable_job jt).wins then .Billable
  else .Unknown

/-! ## finalize_task write effects (src/backend.py lines 473-517) and the
orchestrator's use of them (lines 1013-1056)

`finalize_task(page, task_id, summary_text, is_free)` on its happy path
fills the notes box, ticks `SpawnBillingTask` when `is_free` is false and the
box is not already checked, ticks the completed box when not already checked,
and clicks the update button. `run_with_progress` passes
`is_free = is_free_job(job_type)[1]` (the `is_bill` value is computed but
never consulted). -/

/-- The writes `finalize_task` performs on its happy path. -/
structure FinalizeEffects where
  notesFilled : Bool
  spawnBillingToggled : Bool
  completedToggled : Bool
  submitted : Bool
deriving DecidableEq

/-- The effect of `finalize_task(..., is_free)` given the prior checkbox
states. -/
def finalize_task (is_free billingChecked completedChecked : Bool) : FinalizeEffects :=
  { notesFilled := true
    spawnBillingToggled := !is_free && !billingChecked
    completedToggled := !completedChecked
    submitted := true }

/-- The finalize call exactly as `run_with_progress` issues it for a task
with the given job type: `finalize_task(page, task_id, summary_text, is_free)`. -/
def runFinalizeForJob (jt : String) (billingChecked completedChecked : Bool) : FinalizeEffects :=
  finalize_task (is_free_job jt).wins billingChecked completedChecked

/-! ## Per-task orchestration step (src/backend.py lines 1013-1056) -/

/-- How a due task leaves `run_with_progress`: skipped because notes already
exist (step 3), skipped because no summary was built (step 4), or handed to
`finalize_task` (step 5). -/
inductive TaskStepOutcome
  | skippedExistingNotes
  | skippedNoSummary
  | finalized (ok : Bool)
deriving DecidableEq

/-- What the orchestrator did for one due task. -/
structure TaskTrace where
  summaryAttempted : Bool
  wroteTask : Bool
  outcome : TaskStepOutcome
deriving DecidableEq

/-- One iteration of the `run_with_progress` loop after the job type is
parsed: skip when `has_existing_notes` fires, otherwise build the summary
(`buildSummary` is the outcome of `format_dispatch_summary`), skip when it
yields none, otherwise call `finalize_task` (whose success is `finalizeOk`). -/
def processDueTask (notesHtml : String) (buildSummary : Option String) (finalizeOk : Bool) :
    TaskTrace :=
  if has_existing_notes notesHtml then ⟨false, false, .skippedExistingNotes⟩
  else
    match buildSummary with
    | none => ⟨true, false, .skippedNoSummary⟩
    | some _ => ⟨true, true, .finalized finalizeOk⟩

/-! ## Write/skip idempotency (src/backend.py lines 901-919, 1001-1007,
1021-1029) -/

/-- Outcome of one finalization pass over a task's notes state. -/
inductive WriteOutcome | written | skipped
deriving DecidableEq

/-- Modelled from the spec: the effect of the submitted completion write on
the page that src/backend.py only reads back through `has_existing_notes` —
the recorded summary text becomes part of the task's notes region (the
display-span content preceding its form element). The browser/DOM behaviour
itself is outside src. -/
def recordSummaryInNotes (summary html : String) : String := summary ++ html

/-- One finalization pass: skip when the notes region already has content,
otherwise perform the write. -/
def finalizeStep (html summary : String) : String × WriteOutcome :=
  if has_existing_notes html then (html, .skipped)
  else (recordSummaryInNotes summary html, .written)

/-! ## Write-attempt handling (src/backend.py lines 512-517, 1041-1056)

`finalize_task` catches `PlaywrightTimeout` and generic exceptions and
returns `False`; `run_with_progress` calls it once and, on `False`, logs the
failure and moves to the next task. -/

/-- How one write attempt ends inside `finalize_task`. -/
inductive AttemptOutcome | succeeded | raisedTimeout | raisedOther
deriving DecidableEq

/-- The boolean `finalize_task` returns for one attempt: exceptions are
caught and reported as `False`. -/
def finalize_task_result : AttemptOutcome → Bool
  | .succeeded => true
  | .raisedTimeout => false
  | .raisedOther => false

/-- Terminal per-task result of the completion write in the orchestrator. -/
inductive TaskResult | completed | failed
deriving DecidableEq

/-- The orchestrator's completion write for one task: `attempts n` is what
the n-th call of `finalize_task` would do; the source calls it exactly once,
so the pair returned is (result, number of attempts made). -/
def runWriteStep (attempts : Nat → AttemptOutcome) : TaskResult × Nat :=
  if finalize_task_result (attempts 0) then (.completed, 1) else (.failed, 1)

/-! ## Customer/ticket extraction (src/backend.py lines 566-609, 326-334)

`get_customer_and_ticket_info_from_task` returns `None` when the customer
cells cannot be read. The ticket lookup initializes `ticket_number = None`
but assigns `ticket_id` only inside a `try:`; when the lookup fails (element
missing, or the text has no words so `split()[-1]` raises `IndexError`,
both swallowed by the `except`), the final
`return (..., "ticket": ticket_id, ...)` raises
`NameError`/`UnboundLocalError` because `ticket_id` was never bound. -/

/-- What the task detail view offers: the customer ID/name cells (when
extractable) and the inner text of the bold `Dispatch for Ticket N` element
(when present). -/
structure TaskDetailView where
  customerIdName : Option (String × String)
  dispatchTicketText : Option String

/-- The record the extraction returns on success. -/
structure CustomerTicketInfo where
  customer_name : String
  cid : String
  ticket : String
  customer_url : String
deriving DecidableEq

/-- The customer URL built from the customer ID. -/
def customerUrl (cid : String) : String :=
  "http://inside.sockettelecom.com/menu.php?coid=1&tabid=7&parentid=9&customerid=" ++ cid

/-- Python `str.split()` (no arguments): split on whitespace runs, dropping
empty words. `acc` holds the current word reversed. -/
def wordsAux (acc : List Char) : List Char → List (List Char)
  | [] => if acc.isEmpty then [] else [acc.reverse]
  | c :: t =>
    if isPySpace c then
      if acc.isEmpty then wordsAux [] t else acc.reverse :: wordsAux [] t
    else wordsAux (c :: acc) t

/-- `get_customer_and_ticket_info_from_task`, over the extractable content of
the page: `.ok none` models `return None`, `.error` models an uncaught
exception escaping the function. -/
def get_customer_and_ticket_info (v : TaskDetailView) : Except String (Option CustomerTicketInfo) :=
  match v.customerIdName with
  | none => .ok none
  | some (cid, name) =>
    match v.dispatchTicketText with
    | some t =>
      match (wordsAux [] (pyStrip t.data)).getLast? with
      | some w => .ok (some ⟨name, cid, ⟨w⟩, customerUrl cid⟩)
      | none => .error "NameError: name ticket_id is not defined"
    | none => .error "NameError: name ticket_id is not defined"

/-- The head of `format_dispatch_summary` (lines 326-334): call the
extraction, give up with no summary when it returned `None` or a falsy
ticket; an exception raised by the extraction escapes the builder. -/
def format_dispatch_summary_head (v : TaskDetailView) : Except String (Option CustomerTicketInfo) :=
  match get_customer_and_ticket_info v with
  | .error e => .error e
  | .ok none => .ok none
  | .ok (some ci) => if ci.ticket = "" then .ok none else .ok (some ci)

/-! ## Work-order row selection (src/backend.py lines 611-663)

`get_dispatch_work_order_url(driver, ticket_number, log=None)` is called by
`format_dispatch_summary` without a `log` argument; each failure path calls
`log(...)` first, so with the default `log=None` those paths raise
`TypeError` before reaching their `return None, None`. Among parsed rows it
keeps those whose description matches `ticket\s*#?\s*<N>` and returns
`max(..., key=wo_num)` — the first row with the greatest numeric work-order
number. (The `urljoin` wrapping of the returned href does not affect any
claim and is omitted: the selected href is returned as-is.) -/

/-- One row of the work-orders table: its cell texts and the href of the
link in its fifth cell. -/
structure WorkOrderRow where
  cells : List String
  href : String

/-- Python `str.isdigit` for ASCII text: non-empty and all digits. -/
def pyIsDigitStr (s : String) : Bool :=
  !s.data.isEmpty && s.data.all isDigitChar

/-- `int(...)` on a digit string. -/
def natOfDigits (l : List Char) : Nat :=
  l.foldl (fun n c => 10 * n + (c.toNat - '0'.toNat)) 0

/-- Match `ticket\s*#?\s*<N>` at the start of `l` (`N` never begins with
`#`, so consuming an initial `#` greedily is exact). -/
def matchesTicketAt (ticket : List Char) (l : List Char) : Bool :=
  if startsWithL "ticket".data l then
    let r := (l.drop 6).dropWhile isPySpace
    let r2 := match r with
      | '#' :: t => t.dropWhile isPySpace
      | _ => r
    startsWithL ticket r2
  else false

/-- `re.search(rf"ticket\s*#?\s*(ticket_number)", desc)` as a boolean. -/
def descMatchesTicket (ticket : List Char) : List Char → Bool
  | [] => matchesTicketAt ticket []
  | c :: t => matchesTicketAt ticket (c :: t) || descMatchesTicket ticket t

/-- Parse one row the way the loop does: skip rows with fewer than five
cells, skip header/non-numeric first cells, keep `(int(first), href)` when
the lowered description matches the ticket pattern. -/
def rowCandidate (ticket : String) (row : WorkOrderRow) : Option (Nat × String) :=
  if row.cells.length < 5 then none
  else
    match row.cells.head? with
    | none => none
    | some c0 =>
      let first : String := ⟨pyStrip c0.data⟩
      if first = "#" then none
      else if !pyIsDigitStr first then none
      else
        let desc := (pyStrip ((row.cells.getD 1 "").data)).map pyLowerChar
        if descMatchesTicket ticket.data desc then some (natOfDigits first.data, row.href)
        else none

/-- Python `max(xs, key=fst)`: the first element with the greatest first
component (replace only on strictly greater). -/
def pyMaxByFst (x : Nat × String) (xs : List (Nat × String)) : Nat × String :=
  xs.foldl (fun best y => if best.1 < y.1 then y else best) x

/-- `get_dispatch_work_order_url` over the parsed table content.
`tableFound` is whether the work-orders table selector appeared; `log` is
the optional logger (the sole caller leaves it `None`). `.ok (some (n, href))`
is a successful selection, `.ok none` a logged give-up, `.error` an uncaught
exception. -/
def get_dispatch_work_order_url (tableFound : Bool) (rows : List WorkOrderRow)
    (ticket : String) (log : Option Unit) : Except String (Option (Nat × String)) :=
  if !tableFound then
    match log with
    | none => .error "TypeError: NoneType object is not callable"
    | some _ => .ok none
  else if rows.isEmpty then
    match log with
    | none => .error "TypeError: NoneType object is not callable"
    | some _ => .ok none
  else
    match rows.filterMap (rowCandidate ticket) with
    | [] =>
      match log with
      | none => .error "TypeError: NoneType object is not callable"
      | some _ => .ok none
    | c :: cs => .ok (some (pyMaxByFst c cs))

/-! # Lemmas -/

/-! ## dropWhile / strip facts -/

theorem dropWhile_head_not (p : Char → Bool) (l : List Char) (c : Char)
    (h : (l.dropWhile p).head? = some c) : p c = false := by
  induction l with
  | nil => simp [List.dropWhile] at h
  | cons a t ih =>
    rw [List.dropWhile_cons] at h
    by_cases hp : p a = true
    · rw [if_pos hp] at h
      exact ih h
    · rw [if_neg hp] at h
      simp at h
      rw [← h]
      simpa using hp

theorem dropWhile_of_head_not (p : Char → Bool) (l : List Char)
    (h : ∀ c, l.head? = some c → p c = false) : l.dropWhile p = l := by
  cases l with
  | nil => rfl
  | cons a t => rw [List.dropWhile_cons, h a rfl]; simp

theorem dropWhile_dropWhile (p : Char → Bool) (l : List Char) :
    (l.dropWhile p).dropWhile p = l.dropWhile p :=
  dropWhile_of_head_not p _ (fun c hc => dropWhile_head_not p l c hc)

theorem trimRight_prefix (l : List Char) : trimRight l <+: l := by
  have h1 : l.reverse.dropWhile isPySpace <:+ l.reverse :=
    List.dropWhile_suffix isPySpace
  have h2 : (l.reverse.dropWhile isPySpace).reverse <+: l.reverse.reverse :=
    List.reverse_prefix.mpr h1
  show (l.reverse.dropWhile isPySpace).reverse <+: l
  simpa using h2

theorem trimRight_trimRight (l : List Char) : trimRight (trimRight l) = trimRight l := by
  unfold trimRight
  rw [List.reverse_reverse, dropWhile_dropWhile]

theorem pyStrip_head_not (l : List Char) (c : Char)
    (h : (pyStrip l).head? = some c) : isPySpace c = false := by
  unfold pyStrip at h
  obtain ⟨t, ht⟩ := trimRight_prefix (trimLeft l)
  have hne : trimRight (trimLeft l) ≠ [] := by
    intro hnil; rw [hnil] at h; simp at h
  have hhead : (trimLeft l).head? = some c := by
    rw [← ht]
    cases hx : trimRight (trimLeft l) with
    | nil => exact absurd hx hne
    | cons a r =>
      rw [hx] at h
      simp at h
      simp [hx, h]
  exact dropWhile_head_not isPySpace l c hhead

theorem pyStrip_getLast_not (l : List Char) (c : Char)
    (h : (pyStrip l).getLast? = some c) : isPySpace c = false := by
  unfold pyStrip trimRight at h
  rw [List.getLast?_reverse] at h
  exact dropWhile_head_not isPySpace (trimLeft l).reverse c h

theorem trimLeft_pyStrip (l : List Char) : trimLeft (pyStrip l) = pyStrip l :=
  dropWhile_of_head_not isPySpace _ (fun c hc => pyStrip_head_not l c hc)

theorem pyStrip_idem (l : List Char) : pyStrip (pyStrip l) = pyStrip l := by
  show trimRight (trimLeft (pyStrip l)) = pyStrip l
  rw [trimLeft_pyStrip]
  show trimRight (trimRight (trimLeft l)) = pyStrip l
  rw [trimRight_trimRight]
  rfl

theorem pyStrip_eq_nil_iff (l : List Char) :
    pyStrip l = [] ↔ ∀ c ∈ l, isPySpace c = true := by
  constructor
  · intro h c hc
    unfold pyStrip trimRight at h
    have h2 : (trimLeft l).reverse.dropWhile isPySpace = [] := by
      have := congrArg List.reverse h
      simpa using this
    have hall : ∀ x ∈ (trimLeft l).reverse, isPySpace x = true :=
      List.dropWhile_eq_nil_iff.mp h2
    have haltm : ∀ x ∈ trimLeft l, isPySpace x = true := by
      intro x hx; exact hall x (by simpa using hx)
    have hsplit := List.takeWhile_append_dropWhile isPySpace l
    rw [← hsplit] at hc
    rcases List.mem_append.mp hc with htk | hdr
    · exact List.mem_takeWhile_imp htk
    · exact haltm c hdr
  · intro h
    have h1 : trimLeft l = [] := List.dropWhile_eq_nil_iff.mpr h
    unfold pyStrip
    rw [h1]
    rfl

theorem mem_pyStrip (l : List Char) (c : Char) (h : c ∈ pyStrip l) : c ∈ l := by
  unfold pyStrip trimRight at h
  have h1 : c ∈ (trimLeft l).reverse.dropWhile isPySpace := by simpa using h
  have h2 : c ∈ (trimLeft l).reverse := (List.dropWhile_sublist _).mem h1
  have h3 : c ∈ trimLeft l := by simpa using h2
  exact (List.dropWhile_sublist _).mem h3

/-! ## normalize_string facts -/

theorem isNormChar_pyLower_fix (c : Char) (h : isNormChar c = true) : pyLowerChar c = c := by
  unfold isNormChar at h
  unfold pyLowerChar
  rw [if_neg]
  intro ⟨h1, h2⟩
  simp only [Bool.or_eq_true, Bool.and_eq_true, decide_eq_true_iff] at h
  have hA : 'A'.toNat = 65 := rfl
  have hZ : 'Z'.toNat = 90 := rfl
  rw [hA] at h1; rw [hZ] at h2
  rcases h with (⟨ha, hb⟩ | ⟨ha, hb⟩) | hsp
  · have hx : 'a'.toNat = 97 := rfl
    rw [hx] at ha; omega
  · have hx : '9'.toNat = 57 := rfl
    rw [hx] at hb; omega
  · have hx : c = ' ' := by simpa using hsp
    rw [hx] at h1
    have hy : (' ').toNat = 32 := rfl
    rw [hy] at h1; omega

theorem map_id_of_mem (f : Char → Char) (l : List Char) (h : ∀ c ∈ l, f c = c) :
    l.map f = l := by
  induction l with
  | nil => rfl
  | cons a t ih =>
    simp only [List.map_cons]
    rw [h a (by simp), ih (fun c hc => h c (by simp [hc]))]

theorem mem_normalize_isNormChar (s : String) (c : Char)
    (h : c ∈ (normalize_string s).data) : isNormChar c = true := by
  unfold normalize_string at h
  have h1 : c ∈ (s.data.map pyLowerChar).filter isNormChar :=
    mem_pyStrip _ c h
  exact (List.mem_filter.mp h1).2

theorem normalize_string_idem (s : String) :
    normalize_string (normalize_string s) = normalize_string s := by
  have hmem := mem_normalize_isNormChar s
  have hdata : (normalize_string s).data
      = pyStrip ((s.data.map pyLowerChar).filter isNormChar) := rfl
  have hmap : (normalize_string s).data.map pyLowerChar = (normalize_string s).data :=
    map_id_of_mem _ _ (fun c hc => isNormChar_pyLower_fix c (hmem c hc))
  have hfil : (normalize_string s).data.filter isNormChar = (normalize_string s).data :=
    List.filter_eq_self.mpr hmem
  show (⟨pyStrip (((normalize_string s).data.map pyLowerChar).filter isNormChar)⟩ : String)
    = normalize_string s
  rw [hmap, hfil, hdata, pyStrip_idem]
  rfl

/-- C9 counterexample: the claim says `normalize(None) = ""`, but the code
raises `AttributeError` on `None` (there is no `None` guard before
`s.lower()`), so `normalize_string` is not total over all inputs. -/
theorem c9_counterexample :
    normalize_string_opt none
      = .error "AttributeError: NoneType object has no attribute lower"
    ∧ normalize_string_opt none ≠ .ok "" :=
  ⟨rfl, fun h => Except.noConfusion h⟩

/-- C9: amended. Over actual strings, `normalize_string` is total and returns
a trimmed string over `[a-z0-9 ]` (hence lowercase), it is idempotent, and
the empty string maps to the empty string; but `normalize_string(None)`
raises `AttributeError` instead of returning the empty string. -/
theorem c9_normalize_contract :
    (∀ s : String,
      (∀ c ∈ (normalize_string s).data, isNormChar c = true)
      ∧ (normalize_string s).data.head? ≠ some ' '
      ∧ (normalize_string s).data.getLast? ≠ some ' '
      ∧ normalize_string (normalize_string s) = normalize_string s)
    ∧ normalize_string "" = ""
    ∧ normalize_string_opt none
        = .error "AttributeError: NoneType object has no attribute lower" := by
  refine ⟨fun s => ⟨mem_normalize_isNormChar s, ?_, ?_, normalize_string_idem s⟩, rfl, rfl⟩
  · intro h
    have := pyStrip_head_not ((s.data.map pyLowerChar).filter isNormChar) ' ' h
    simp [isPySpace] at this
  · intro h
    have := pyStrip_getLast_not ((s.data.map pyLowerChar).filter isNormChar) ' ' h
    simp [isPySpace] at this

/-! ## has_existing_notes facts -/

theorem has_existing_notes_of_nonspace (html : String)
    (h : ∃ c ∈ stripTags (splitBefore "<form".data html.data), isPySpace c = false) :
    has_existing_notes html = true := by
  unfold has_existing_notes
  obtain ⟨c, hc, hcs⟩ := h
  cases hx : pyStrip (stripTags (splitBefore "<form".data html.data)) with
  | cons a r => simp [hx]
  | nil =>
    have hall := (pyStrip_eq_nil_iff _).mp hx
    rw [hall c hc] at hcs
    cases hcs

/-- C10: every due task whose notes region holds non-whitespace text after
tag stripping is skipped by `run_with_progress` with no write and no summary
build, whatever the candidate summary would have been. -/
theorem c10_existing_notes_skip (html : String)
    (h : ∃ c ∈ stripTags (splitBefore "<form".data html.data), isPySpace c = false) :
    ∀ (buildSummary : Option String) (finalizeOk : Bool),
      processDueTask html buildSummary finalizeOk
        = ⟨false, false, .skippedExistingNotes⟩ := by
  intro b f
  unfold processDueTask
  rw [has_existing_notes_of_nonspace html h]
  simp

/-- Witness for C10 at a concrete notes region and candidate summary. -/
theorem c10_witness :
    (∃ c ∈ stripTags (splitBefore "<form".data "Existing note<form id=9></form>".data),
      isPySpace c = false)
    ∧ processDueTask "Existing note<form id=9></form>" (some "CUSTOMER: Jane Roe") true
        = ⟨false, false, .skippedExistingNotes⟩ :=
  ⟨by decide, c10_existing_notes_skip _ (by decide) _ _⟩

/-! ## Idempotency of the finalization step -/

theorem splitBefore_append_left (nd : List Char) (s t : List Char)
    (h : ∀ c ∈ s, ¬ c = '<') :
    splitBefore ('<' :: nd) (s ++ t) = s ++ splitBefore ('<' :: nd) t := by
  induction s with
  | nil => rfl
  | cons a s ih =>
    have ha : ¬ a = '<' := h a (by simp)
    have hcond : ¬ startsWithL ('<' :: nd) (a :: (s ++ t)) = true := by
      unfold startsWithL
      simp only [Bool.and_eq_true, decide_eq_true_iff]
      intro hx
      exact ha hx.1.symm
    show splitBefore ('<' :: nd) (a :: (s ++ t)) = a :: (s ++ splitBefore ('<' :: nd) t)
    rw [splitBefore, if_neg hcond, ih (fun c hc => h c (by simp [hc]))]

theorem stripTags_append_left (s t : List Char) (h : ∀ c ∈ s, ¬ c = '<') :
    stripTags (s ++ t) = s ++ stripTags t := by
  induction s with
  | nil => rfl
  | cons a s ih =>
    have ha : ¬ a = '<' := h a (by simp)
    have ih' := ih (fun c hc => h c (by simp [hc]))
    unfold stripTags at ih'
    show stripTagsGo none (a :: (s ++ t)) = a :: (s ++ stripTagsGo none t)
    rw [stripTagsGo, if_neg ha, ih']

theorem has_existing_notes_record (summary html : String)
    (hplain : ∀ c ∈ summary.data, ¬ c = '<')
    (hnonws : ∃ c ∈ summary.data, isPySpace c = false) :
    has_existing_notes (recordSummaryInNotes summary html) = true := by
  apply has_existing_notes_of_nonspace
  obtain ⟨c, hc, hcs⟩ := hnonws
  refine ⟨c, ?_, hcs⟩
  have hform : "<form".data = '<' :: "form".data := rfl
  have hdata : (recordSummaryInNotes summary html).data = summary.data ++ html.data := by
    unfold recordSummaryInNotes
    exact String.data_append summary html
  rw [hdata, hform, splitBefore_append_left _ _ _ hplain,
    stripTags_append_left _ _ hplain]
  simp [hc]

/-- C3: applying the finalization step twice with the same candidate summary
over the same starting notes state writes on the first application only; the
second application is a skip that leaves the state unchanged. The summary is
any markup-free text with visible content (every rendered summary starts
with `CUSTOMER: `). -/
theorem c3_finalize_idempotent (html summary : String)
    (hfresh : has_existing_notes html = false)
    (hplain : ∀ c ∈ summary.data, ¬ c = '<')
    (hnonws : ∃ c ∈ summary.data, isPySpace c = false) :
    finalizeStep html summary = (recordSummaryInNotes summary html, .written)
    ∧ finalizeStep (recordSummaryInNotes summary html) summary
        = (recordSummaryInNotes summary html, .skipped) := by
  constructor
  · unfold finalizeStep
    rw [hfresh]
    simp
  · unfold finalizeStep
    rw [has_existing_notes_record summary html hplain hnonws]
    simp

/-- Witness for C3 at a concrete fresh task and summary. -/
theorem c3_witness :
    has_existing_notes "<form id=f1></form>" = false
    ∧ (∀ c ∈ "CUSTOMER: Jane Roe".data, ¬ c = '<')
    ∧ (∃ c ∈ "CUSTOMER: Jane Roe".data, isPySpace c = false)
    ∧ finalizeStep "<form id=f1></form>" "CUSTOMER: Jane Roe"
        = (recordSummaryInNotes "CUSTOMER: Jane Roe" "<form id=f1></form>", .written)
    ∧ finalizeStep (recordSummaryInNotes "CUSTOMER: Jane Roe" "<form id=f1></form>")
        "CUSTOMER: Jane Roe"
        = (recordSummaryInNotes "CUSTOMER: Jane Roe" "<form id=f1></form>", .skipped) :=
  ⟨by decide, by decide, by decide,
    (c3_finalize_idempotent _ _ (by decide) (by decide) (by decide)).1,
    (c3_finalize_idempotent _ _ (by decide) (by decide) (by decide)).2⟩

/-! ## C2: Brightspeed precedence in the responsible-party chain -/

/-- C2 counterexample: the claim says the Brightspeed rule overrides even a
`damage caused by` capture, but that capture sits on the `if` side of the
branch while the Brightspeed check lives only in the `else`, so a
`damage caused by` match suppresses the override even though "brightspeed"
occurs in the notes. -/
theorem c2_counterexample :
    containsSub "brightspeed".data
      ("damage caused by the contractor and brightspeed".data.map pyLowerChar) = true
    ∧ responsibleParty "damage caused by the contractor and brightspeed"
        = "the contractor and brightspeed"
    ∧ responsibleParty "damage caused by the contractor and brightspeed" ≠ "Brightspeed" := by
  refine ⟨by decide, by decide, ?_⟩
  intro h
  have h2 : responsibleParty "damage caused by the contractor and brightspeed"
      = "the contractor and brightspeed" := by decide
  rw [h] at h2
  exact absurd h2 (by decide)

/-- C2: amended. The Brightspeed override fires only when the
`damage caused by` regex did not match: in that case the occurrence of
"brightspeed" or "bright speed" anywhere in the (lowered) combined notes
forces RESPONSIBLE PARTY to "Brightspeed", overriding both the default and
any `(.+?) responsible` capture. -/
theorem c2_brightspeed_override_scope (notes : String)
    (hnod : searchDamage (notes.data.map pyLowerChar) = none)
    (hbs : containsSub "brightspeed".data (notes.data.map pyLowerChar) = true
      ∨ containsSub "bright speed".data (notes.data.map pyLowerChar) = true) :
    responsibleParty notes = "Brightspeed" := by
  unfold responsibleParty
  simp only [hnod]
  rcases hbs with h | h <;> simp [h]

/-- Witness for C2 at a concrete notes text with no damage clause. -/
theorem c2_witness :
    searchDamage ("brightspeed crew was on site".data.map pyLowerChar) = none
    ∧ responsibleParty "brightspeed crew was on site" = "Brightspeed" :=
  ⟨by decide, c2_brightspeed_override_scope _ (by decide) (Or.inl (by decide))⟩

/-! ## C4: no retry of a failed completion write -/

/-- C4 counterexample: the claim says a raising write attempt is retried
once, so an attempt sequence failing first and succeeding second should end
`completed` after two attempts; the code calls `finalize_task` exactly once
and records the task as failed. -/
theorem c4_counterexample :
    runWriteStep (fun n => if n = 0 then .raisedTimeout else .succeeded) = (.failed, 1)
    ∧ (fun n => if n = 0 then AttemptOutcome.raisedTimeout else .succeeded) 0
        = .raisedTimeout
    ∧ (fun n => if n = 0 then AttemptOutcome.raisedTimeout else .succeeded) 1
        = .succeeded :=
  ⟨rfl, rfl, rfl⟩

/-- C4: amended. A completion-write attempt that raises (missing element or
timeout) is caught inside `finalize_task` and reported as failure; there is
no retry: exactly one attempt is made per task, and that single failure makes
the task's outcome Failed. -/
theorem c4_single_attempt :
    ∀ attempts : Nat → AttemptOutcome,
      (runWriteStep attempts).2 = 1
      ∧ ((runWriteStep attempts).1 = .failed
          ↔ finalize_task_result (attempts 0) = false) := by
  intro a
  unfold runWriteStep
  cases h : finalize_task_result (a 0) <;> simp [h]

/-! ## C7: unresolved ticket number raises instead of returning no summary -/

/-- C7 (code bug): with the customer cells readable but no
`Dispatch for Ticket` element, the extraction raises
(`ticket_id` is referenced at the `return` but only ever assigned inside the
failed `try`; `ticket_number = None` initializes a different name), so the
builder propagates an exception instead of returning no summary. The second
conjunct shows the raise escapes `format_dispatch_summary`; the third shows
the happy path extracting ticket `999`. -/
theorem c7_missing_ticket_raises :
    get_customer_and_ticket_info ⟨some ("12345", "Acme Fiber"), none⟩
      = .error "NameError: name ticket_id is not defined"
    ∧ format_dispatch_summary_head ⟨some ("12345", "Acme Fiber"), none⟩
      = .error "NameError: name ticket_id is not defined"
    ∧ get_customer_and_ticket_info ⟨some ("12345", "Acme Fiber"), some "Dispatch for Ticket 999"⟩
      = .ok (some ⟨"Acme Fiber", "12345", "999", customerUrl "12345"⟩) :=
  ⟨rfl, rfl, rfl⟩

/-! ## C8: failed work-order lookup raises; selection takes the highest number -/

/-- C8 (code bug): every failure path of `get_dispatch_work_order_url` calls
`log(...)` first, and the sole caller leaves the default `log=None`, so a
missing table or an unmatched ticket raises `TypeError` before the
`return None, None` is reached. Among matching rows the one with the highest
numeric work-order number is selected (17 over 3 and 5; the header row and
the row for another ticket are ignored). With a real logger supplied the
give-up paths do return no summary. -/
theorem c8_no_match_raises_and_max_selection :
    get_dispatch_work_order_url true
      [⟨["7", "install for ticket #55", "", "", "x"], "u7"⟩] "123" none
      = .error "TypeError: NoneType object is not callable"
    ∧ get_dispatch_work_order_url false [] "123" none
      = .error "TypeError: NoneType object is not callable"
    ∧ get_dispatch_work_order_url true
        [⟨["3", "dispatch for ticket #77", "", "", "x"], "u3"⟩,
         ⟨["17", "dispatch for ticket 77 redo", "", "", "x"], "u17"⟩,
         ⟨["#", "Description", "", "", "x"], "hdr"⟩,
         ⟨["5", "ticket #77 again", "", "", "x"], "u5"⟩,
         ⟨["99", "ticket #78", "", "", "x"], "u99"⟩] "77" (some ())
      = .ok (some (17, "u17"))
    ∧ get_dispatch_work_order_url true
        [⟨["7", "install for ticket #55", "", "", "x"], "u7"⟩] "123" (some ())
      = .ok none :=
  ⟨rfl, rfl, rfl, rfl⟩

/-! ## C5: billable-hours invariants -/

theorem timesFour_eq (q : ℚ) : timesFour q = 4 * q := by
  unfold timesFour
  rw [Rat.mkRat_eq_div]
  push_cast
  rw [mul_div_assoc, Rat.num_div_den]

theorem one_le_pyMax_one (a : ℚ) : 1 ≤ pyMax a 1 := by
  unfold pyMax
  split
  · exact le_refl 1
  · exact le_of_not_lt (by assumption)

theorem floor_le_pyRound (q : ℚ) : ⌊q⌋ ≤ pyRound q := by
  unfold pyRound
  dsimp only
  split
  · exact le_refl _
  · split
    · omega
    · split
      · exact le_refl _
      · omega

theorem quarterSteps_ge_four (m : ℤ) : 4 ≤ quarterSteps m := by
  unfold quarterSteps
  have h1 : 1 ≤ pyMax (mkRat m 60) 1 := one_le_pyMax_one _
  have h4 : (4 : ℚ) ≤ timesFour (pyMax (mkRat m 60) 1) := by
    rw [timesFour_eq]
    linarith
  have hf : (4 : ℤ) ≤ ⌊timesFour (pyMax (mkRat m 60) 1)⌋ := by
    rw [Int.le_floor]
    exact_mod_cast h4
  exact le_trans hf (floor_le_pyRound _)

/-- C5: with both endpoints valid, the total is
`round(max(diff_hours, 1.0) * 4) / 4`: always a quarter-hour multiple at
least 1.0 (for every minute difference, even a negative one); a 50-minute
dispatch renders "1.00" and a 3 h 10 min dispatch renders "3.25"; and
whenever the arrival or the departure display fails validation, the rendered
total is the literal "1.00". -/
theorem c5_total_hours :
    (∀ m : ℤ, 1 ≤ totalHoursQ m
      ∧ ∃ k : ℤ, 4 ≤ k ∧ totalHoursQ m = mkRat k 4)
    ∧ totalDisplayValidCase 50 = "1.00"
    ∧ totalDisplayValidCase 190 = "3.25"
    ∧ totalDisplay "2024-01-01" "8:00" "2024-01-01" "8:50" 50 = "1.00"
    ∧ totalDisplay "2024-01-01" "8:00" "2024-01-01" "11:10" 190 = "3.25"
    ∧ (∀ (arrTime depDate depTime : String) (m : ℤ),
        totalDisplay "" arrTime depDate depTime m = "1.00")
    ∧ (∀ (arrDate arrTime depDate : String) (m : ℤ),
        totalDisplay arrDate arrTime depDate "x100" m = "1.00") := by
  refine ⟨fun m => ⟨?_, quarterSteps m, quarterSteps_ge_four m, rfl⟩,
    by decide, by decide, by decide, by decide, ?_, ?_⟩
  · unfold totalHoursQ
    rw [Rat.mkRat_eq_div]
    rw [le_div_iff₀ (by norm_num)]
    have h1 := quarterSteps_ge_four m
    have h2 : (4 : ℚ) ≤ (quarterSteps m : ℚ) := by exact_mod_cast h1
    push_cast
    linarith
  · intro arrTime depDate depTime m
    unfold totalDisplay displayValid
    simp
  · intro arrDate arrTime depDate m
    unfold totalDisplay
    have hx : displayValid depDate "x100" = false := by
      unfold displayValid
      have ht : matchTimePrefix "x100" = false := by decide
      rw [ht]
      simp
    rw [hx]
    simp

/-! ## C6: threshold and precedence of the classifier -/

theorem pickBetter_isSome (q : List Char) (acc : Option (List Char × ℚ)) (c : List Char) :
    (pickBetter q acc c).isSome = true := by
  unfold pickBetter
  cases acc with
  | none => rfl
  | some p =>
    cases p with
    | mk bc bs => dsimp only; split <;> rfl

theorem foldl_pickBetter_isSome (q : List Char) :
    ∀ (cands : List (List Char)) (acc : Option (List Char × ℚ)),
      (acc.isSome = true ∨ cands ≠ []) →
      (cands.foldl (pickBetter q) acc).isSome = true := by
  intro cands
  induction cands with
  | nil =>
    intro acc h
    rcases h with h | h
    · simpa using h
    · exact absurd rfl h
  | cons c cs ih =>
    intro acc _
    exact ih (pickBetter q acc c) (Or.inl (pickBetter_isSome q acc c))

theorem foldl_pickBetter_ge (q : List Char) :
    ∀ (cands : List (List Char)) (acc : Option (List Char × ℚ)) (m : List Char) (s : ℚ),
      cands.foldl (pickBetter q) acc = some (m, s) →
      (∀ bc bs, acc = some (bc, bs) → bs ≤ s)
      ∧ (∀ k ∈ cands, partRatioQ q k ≤ s) := by
  intro cands
  induction cands with
  | nil =>
    intro acc m s h
    refine ⟨fun bc bs hacc => ?_, fun k hk => absurd hk (by simp)⟩
    rw [hacc] at h
    simp at h
    rw [h.2]
  | cons c cs ih =>
    intro acc m s h
    have hstep := ih (pickBetter q acc c) m s h
    have hcov : partRatioQ q c ≤ s := by
      cases hacc : acc with
      | none =>
        exact hstep.1 c (partRatioQ q c) (by rw [hacc]; rfl)
      | some p =>
        cases p with
        | mk bc bs =>
          by_cases hlt : bs < partRatioQ q c
          · exact hstep.1 c (partRatioQ q c)
              (by rw [hacc]; unfold pickBetter; dsimp only; rw [if_pos hlt])
          · have hbs : bs ≤ s := hstep.1 bc bs
              (by rw [hacc]; unfold pickBetter; dsimp only; rw [if_neg hlt])
            exact le_trans (le_of_not_lt hlt) hbs
    refine ⟨fun bc bs hacc => ?_, fun k hk => ?_⟩
    · cases hacc
      by_cases hlt : bs < partRatioQ q c
      · exact le_trans (le_of_lt hlt) hcov
      · exact hstep.1 bc bs (by unfold pickBetter; dsimp only; rw [if_neg hlt])
    · rcases List.mem_cons.mp hk with hk | hk
      · rw [hk]; exact hcov
      · exact hstep.2 k hk

/-- C6: for every non-empty job-type string, the Free set wins exactly when
its best partial-ratio score is strictly above 90; a winning Free score
classifies the task Free no matter what the Billable score is; when neither
best score exceeds 90 the category is Unknown (and a Billable-only win gives
Billable); and the reported Free score dominates the partial ratio of every
Free exemplar. -/
theorem c6_classifier_threshold_precedence (jt : String) (hne : jt ≠ "") :
    ((is_free_job jt).wins = true ↔ 90 < (is_free_job jt).score)
    ∧ (90 < (is_free_job jt).score → classifyCategory jt = .Free)
    ∧ ((is_free_job jt).score ≤ 90 → (is_billable_job jt).score ≤ 90 →
        classifyCategory jt = .Unknown)
    ∧ ((is_free_job jt).score ≤ 90 → 90 < (is_billable_job jt).score →
        classifyCategory jt = .Billable)
    ∧ (∀ k ∈ freeKeywords, partRatioQ (normalize_string jt).data k ≤ (is_free_job jt).score) := by
  have hfsome : (extractOne (normalize_string jt).data freeKeywords).isSome = true :=
    foldl_pickBetter_isSome _ freeKeywords none (Or.inr (by decide))
  have hbsome : (extractOne (normalize_string jt).data billableKeywords).isSome = true :=
    foldl_pickBetter_isSome _ billableKeywords none (Or.inr (by decide))
  obtain ⟨⟨mf, sf⟩, hf⟩ := Option.isSome_iff_exists.mp hfsome
  obtain ⟨⟨mb, sb⟩, hb⟩ := Option.isSome_iff_exists.mp hbsome
  have hfree : is_free_job jt = ⟨⟨mf⟩, decide ((90 : ℚ) < sf), sf⟩ := by
    unfold is_free_job
    rw [if_neg hne, hf]
  have hbill : is_billable_job jt = ⟨⟨mb⟩, decide ((90 : ℚ) < sb), sb⟩ := by
    unfold is_billable_job
    rw [if_neg hne, hb]
  refine ⟨?_, ?_, ?_, ?_, ?_⟩
  · rw [hfree]
    exact decide_eq_true_iff
  · intro h
    rw [hfree] at h
    dsimp only at h
    unfold classifyCategory
    rw [hfree]
    dsimp only
    rw [if_pos (decide_eq_true h)]
  · intro h1 h2
    rw [hfree] at h1
    rw [hbill] at h2
    dsimp only at h1 h2
    unfold classifyCategory
    rw [hfree, hbill]
    dsimp only
    rw [if_neg (by rw [decide_eq_false (not_lt.mpr h1)]; exact Bool.false_ne_true),
      if_neg (by rw [decide_eq_false (not_lt.mpr h2)]; exact Bool.false_ne_true)]
  · intro h1 h2
    rw [hfree] at h1
    rw [hbill] at h2
    dsimp only at h1 h2
    unfold classifyCategory
    rw [hfree, hbill]
    dsimp only
    rw [if_neg (by rw [decide_eq_false (not_lt.mpr h1)]; exact Bool.false_ne_true),
      if_pos (decide_eq_true h2)]
  · intro k hk
    rw [hfree]
    dsimp only
    exact (foldl_pickBetter_ge _ freeKeywords none mf sf hf).2 k hk

/-- Witness for C6 at a concrete non-empty job-type string. -/
theorem c6_witness :
    "unknown" ≠ ""
    ∧ ((((is_free_job "unknown").wins = true ↔ 90 < (is_free_job "unknown").score)
      ∧ (90 < (is_free_job "unknown").score → classifyCategory "unknown" = .Free)
      ∧ ((is_free_job "unknown").score ≤ 90 → (is_billable_job "unknown").score ≤ 90 →
          classifyCategory "unknown" = .Unknown)
      ∧ ((is_free_job "unknown").score ≤ 90 → 90 < (is_billable_job "unknown").score →
          classifyCategory "unknown" = .Billable)
      ∧ (∀ k ∈ freeKeywords,
          partRatioQ (normalize_string "unknown").data k ≤ (is_free_job "unknown").score))) :=
  ⟨by decide, c6_classifier_threshold_precedence "unknown" (by decide)⟩

/-! ## C1: Unknown-category tasks are finalized like Billable ones -/

set_option maxRecDepth 10000 in
/-- C1 counterexample: a job type recognized by neither keyword set (category
Unknown) still reaches `finalize_task` with `is_free = False`, which fills
the notes AND toggles the `SpawnBillingTask` indicator (here: both checkboxes
initially unchecked), contradicting the claimed notes-only path where that
toggle is never touched. -/
theorem c1_counterexample :
    classifyCategory "zzz" = .Unknown
    ∧ (runFinalizeForJob "zzz" false false).spawnBillingToggled = true := by
  constructor
  · decide
  · decide

/-- C1: amended. A task whose category is Unknown is finalized exactly like a
Billable task: `run_with_progress` passes `is_free = False` to
`finalize_task`, which fills the notes, toggles the completed box when not
already checked, submits — and toggles the spawn-billing indicator whenever
it is not already checked. There is no notes-only path in the orchestrator
(`update_notes_only` and the computed `is_bill` are never used). -/
theorem c1_unknown_finalized_as_billable (jt : String)
    (h : classifyCategory jt = .Unknown) :
    ∀ billingChecked completedChecked : Bool,
      runFinalizeForJob jt billingChecked completedChecked
        = ⟨true, !billingChecked, !completedChecked, true⟩ := by
  intro bc cc
  have hw : (is_free_job jt).wins = false := by
    by_cases hx : (is_free_job jt).wins = true
    · unfold classifyCategory at h
      rw [if_pos hx] at h
      cases h
    · exact Bool.not_eq_true _ |>.mp hx
  unfold runFinalizeForJob finalize_task
  rw [hw]
  rfl

set_option maxRecDepth 10000 in
/-- Witness for C1's amended theorem at a concrete Unknown job type with both
checkboxes initially unchecked. -/
theorem c1_witness :
    classifyCategory "zzz" = .Unknown
    ∧ runFinalizeForJob "zzz" false false = ⟨true, true, true, true⟩ :=
  ⟨by decide, c1_unknown_finalized_as_billable "zzz" (by decide) false false⟩
